import Mathlib

/-!
# Verification of the client-side network core (`src/protocol/network`)

A shallow embedding of the task registry, result pump, message dispatcher,
timeout/cancellation envelope and chat-send path of `network_impl.rs` and
`worker.rs`, together with theorems settling the specified properties.

Conventions: `u64` counters are modelled as `Nat` (the `fetch_add` wrap at
`2^64` is unreachable for any realistic number of submissions and is not
modelled); `Uuid` identifiers are modelled as `Nat`; Rust `Result<T, E>` is
modelled as `Except E T` (`.ok` / `.error`).
-/

namespace ClientNetwork

/-! ## Wire frames

Modelled from the spec: the module `ws_message.rs` (declared in
`src/protocol/network/mod.rs`) is not present in the sources; its types
`ClientToServer::Send {message_seq, content}`, `ServerToClient::ACK
{message_seq}` and `ServerToClient::Distribute {sender, content}` with
`content = {conversation_id, content}` are taken from the spec's wire-frame
section and match every use site in `network_impl.rs` and `worker.rs`. -/

/-- `ChatContent { conversation_id, content }` from the wire contract. -/
structure ChatContent where
  conversation_id : Nat
  content : String
deriving DecidableEq

/-- Payload of `ServerToClient::Distribute { sender, content }`. -/
structure DistributeMsg where
  sender : Nat
  content : ChatContent
deriving DecidableEq

/-- `ServerToClient` frames received from the WebSocket. -/
inductive ServerToClient where
  | distribute (m : DistributeMsg)
  | ack (message_seq : Nat)
deriving DecidableEq

/-- `ClientToServer::Send(SendMessage { message_seq, content })`, the only
outbound frame. -/
inductive ClientToServer where
  | send (message_seq : Nat) (content : ChatContent)
deriving DecidableEq

/-! ## Event and error types (`network.rs`) -/

/-- `NetworkError` from `network.rs`: transport-level failure conditions. -/
inductive NetworkError where
  | aborted
  | sysCancelled
  | usrCancelled
  | timeout
deriving DecidableEq

/-- `CaptchaData { id, image_base64 }` from `network.rs`. -/
structure CaptchaData where
  id : Nat
  image_base64 : String
deriving DecidableEq

/-- `CaptchaError` from `network.rs`. -/
inductive CaptchaError where
  | fallbackError
deriving DecidableEq

instance exceptDecEq {ε α : Type} [DecidableEq ε] [DecidableEq α] :
    DecidableEq (Except ε α) := fun
  | .ok a, .ok b =>
      if h : a = b then .isTrue (by rw [h])
      else .isFalse (by intro he; cases he; exact h rfl)
  | .ok _, .error _ => .isFalse (by intro h; cases h)
  | .error _, .ok _ => .isFalse (by intro h; cases h)
  | .error a, .error b =>
      if h : a = b then .isTrue (by rw [h])
      else .isFalse (by intro he; cases he; exact h rfl)

/-- `CaptchaEvent { result }` from `network.rs`. -/
structure CaptchaEvent where
  result : Except CaptchaError CaptchaData
deriving DecidableEq

/-- `SignupError` from `network.rs`. -/
inductive SignupError where
  | duplicateName
  | weakPassword
  | wrongCaptcha
  | fallbackError
deriving DecidableEq

/-- `SignupEvent { result }` from `network.rs`. -/
structure SignupEvent where
  result : Except SignupError Unit
deriving DecidableEq

/-- `TokenInfo { user_id, access_token }` from `network.rs`. -/
structure TokenInfo where
  user_id : Nat
  access_token : String
deriving DecidableEq

/-- `LoginError` from `network.rs`. -/
inductive LoginError where
  | unauthorized
  | wrongCaptcha
  | fallbackError
deriving DecidableEq

/-- `LoginEvent { result }` from `network.rs`. -/
structure LoginEvent where
  result : Except LoginError TokenInfo
deriving DecidableEq

/-- `ChatConnError` from `network.rs`. -/
inductive ChatConnError where
  | fallbackError
deriving DecidableEq

/-- `SessionEvent { result }`; `ChatMetaData` is a unit struct. -/
structure SessionEvent where
  result : Except ChatConnError Unit
deriving DecidableEq

/-- `MessageError` from `network.rs`. -/
inductive MessageError where
  | missingSession
  | fallbackError
deriving DecidableEq

/-- `MessageEvent { result }`; `MessageSent` is a unit struct. -/
structure MessageEvent where
  result : Except MessageError Unit
deriving DecidableEq

/-- `NetworkEvent` from `network.rs`. -/
inductive NetworkEvent where
  | captcha (e : CaptchaEvent)
  | signup (e : SignupEvent)
  | login (e : LoginEvent)
  | session (e : SessionEvent)
  | chat (e : MessageEvent)
deriving DecidableEq

/-- `NetworkResult = Result<NetworkEvent, NetworkError>`. -/
abbrev NetworkResult := Except NetworkError NetworkEvent

/-- `WithGeneration<T> { generation, result }` from `network.rs`. -/
structure WithGeneration (α : Type) where
  generation : Nat
  result : α
deriving DecidableEq

/-- `ChatMessage { sender, conversation_id, content }` handed to the
session's stream callback (`network.rs`). -/
structure ChatMessage where
  sender : Nat
  conversation_id : Nat
  content : String
deriving DecidableEq

/-! ## Task Registry state machine (`network_impl.rs`)

State of the bookkeeping owned by `NetworkImpl`: the atomic `generation`
counter, the key set of the `task_records` map, and three instrumentation
logs recording the history the claims quantify over — `fired` (generations
whose callback the result pump invoked, in invocation order), `cancelled`
(generations removed by a successful `cancel`), `inserted` (every
generation for which a `TaskRecord` was ever inserted), and `allocLog`
(the generation returned by each `create_task`, in submission order). -/

structure NetState where
  generation : Nat
  records : List Nat
  fired : List Nat
  cancelled : List Nat
  inserted : List Nat
  allocLog : List Nat
deriving DecidableEq

/-- The fresh `NetworkImpl` of `try_new`: counter 0, no records. -/
def initState : NetState :=
  { generation := 0, records := [], fired := [], cancelled := [],
    inserted := [], allocLog := [] }

/-- `create_task` (lines 187–247): `generation.fetch_add(1)` allocates the
current counter value, the task is spawned, and the `TaskRecord` is
inserted at that generation before the start gate is tripped. Returns the
new state and the allocated generation. -/
def create_task_step (s : NetState) : NetState × Nat :=
  let g := s.generation
  ({ s with
      generation := g + 1,
      records := g :: s.records,
      inserted := g :: s.inserted,
      allocLog := s.allocLog ++ [g] }, g)

/-- `connect_chat` (lines 391–454): one extra `fetch_add` mints the
`stream_generation` that tags the session (line 400, never inserted into
`task_records`), then `create_task` allocates the request's generation. -/
def connect_chat_step (s : NetState) : NetState × Nat :=
  create_task_step { s with generation := s.generation + 1 }

/-- `cancel` (lines 382–389): `task_records.remove(&generation)`; if a
record was present it is aborted and `Ok(())` is returned (`true`), else
`Err` ("No such task", `false`). The callback of a removed record is
dropped, never invoked. -/
def cancel_step (s : NetState) (g : Nat) : NetState × Bool :=
  if g ∈ s.records then
    ({ s with records := s.records.erase g, cancelled := g :: s.cancelled }, true)
  else
    (s, false)

/-- One iteration of the result pump `send_result_back` (lines 110–123)
for an arriving `WithGeneration` tagged `g`: remove the matching record;
if present, abort the handle and invoke its callback (recorded in
`fired`); if absent, drop the result. -/
def deliver_step (s : NetState) (g : Nat) : NetState :=
  if g ∈ s.records then
    { s with records := s.records.erase g, fired := s.fired ++ [g] }
  else
    s

/-- The registry operations whose interleavings the claims quantify over.
`submit` is any of `fetch_captcha`/`signup`/`login`/`send_chat_message`
(one `create_task`); `submitConnect` is `connect_chat`. -/
inductive Op where
  | submit
  | submitConnect
  | cancel (g : Nat)
  | deliver (g : Nat)
deriving DecidableEq

/-- Apply one operation to the registry state. -/
def step (s : NetState) : Op → NetState
  | .submit => (create_task_step s).1
  | .submitConnect => (connect_chat_step s).1
  | .cancel g => (cancel_step s g).1
  | .deliver g => deliver_step s g

/-- Run a sequence of operations. -/
def run (s : NetState) (ops : List Op) : NetState :=
  ops.foldl step s

/-- Number of task submissions (each allocating one task generation). -/
def countSubmits : List Op → Nat
  | [] => 0
  | .submit :: ops => countSubmits ops + 1
  | .submitConnect :: ops => countSubmits ops + 1
  | .cancel _ :: ops => countSubmits ops
  | .deliver _ :: ops => countSubmits ops

/-- The registry invariant: record keys and the fired log are duplicate
free, every generation they hold is below the counter, a live record has
not fired, and every inserted generation is accounted for by exactly the
three removal paths (still live, fired, or cancelled). The allocation log
is strictly increasing and below the counter. -/
structure Inv (s : NetState) : Prop where
  nodupRecords : s.records.Nodup
  nodupFired : s.fired.Nodup
  recordsLt : ∀ g ∈ s.records, g < s.generation
  firedLt : ∀ g ∈ s.fired, g < s.generation
  cancelledLt : ∀ g ∈ s.cancelled, g < s.generation
  disj : ∀ g ∈ s.records, g ∉ s.fired
  partition : ∀ g ∈ s.inserted, g ∈ s.records ∨ g ∈ s.fired ∨ g ∈ s.cancelled
  allocSorted : s.allocLog.Pairwise (· < ·)
  allocLt : ∀ g ∈ s.allocLog, g < s.generation

theorem inv_init : Inv initState := by
  constructor <;> simp [initState]

theorem run_nil (s : NetState) : run s [] = s := rfl

theorem run_cons (s : NetState) (op : Op) (ops : List Op) :
    run s (op :: ops) = run (step s op) ops := rfl

theorem run_append (s : NetState) (l₁ l₂ : List Op) :
    run s (l₁ ++ l₂) = run (run s l₁) l₂ :=
  List.foldl_append ..

theorem inv_bump {s : NetState} (h : Inv s) :
    Inv { s with generation := s.generation + 1 } := by
  obtain ⟨h1, h2, h3, h4, h5, h6, h7, h8, h9⟩ := h
  exact ⟨h1, h2, fun g hg => Nat.lt_succ_of_lt (h3 g hg),
    fun g hg => Nat.lt_succ_of_lt (h4 g hg),
    fun g hg => Nat.lt_succ_of_lt (h5 g hg), h6, h7, h8,
    fun g hg => Nat.lt_succ_of_lt (h9 g hg)⟩

theorem inv_create {s : NetState} (h : Inv s) : Inv (create_task_step s).1 := by
  obtain ⟨h1, h2, h3, h4, h5, h6, h7, h8, h9⟩ := h
  refine ⟨?_, h2, ?_, ?_, ?_, ?_, ?_, ?_, ?_⟩ <;> simp only [create_task_step]
  · exact List.nodup_cons.mpr ⟨fun hmem => absurd (h3 _ hmem) (lt_irrefl _), h1⟩
  · intro g hg
    rcases List.mem_cons.mp hg with rfl | hg
    · exact Nat.lt_succ_self _
    · exact Nat.lt_succ_of_lt (h3 g hg)
  · exact fun g hg => Nat.lt_succ_of_lt (h4 g hg)
  · exact fun g hg => Nat.lt_succ_of_lt (h5 g hg)
  · intro g hg
    rcases List.mem_cons.mp hg with rfl | hg
    · exact fun hf => absurd (h4 _ hf) (lt_irrefl _)
    · exact h6 g hg
  · intro g hg
    rcases List.mem_cons.mp hg with rfl | hg
    · exact Or.inl (List.mem_cons_self _ _)
    · rcases h7 g hg with hr | hf | hc
      · exact Or.inl (List.mem_cons_of_mem _ hr)
      · exact Or.inr (Or.inl hf)
      · exact Or.inr (Or.inr hc)
  · refine List.pairwise_append.mpr ⟨h8, List.pairwise_singleton _ _, ?_⟩
    intro x hx y hy
    simp only [List.mem_singleton] at hy
    exact hy ▸ h9 x hx
  · intro g hg
    rcases List.mem_append.mp hg with hg | hg
    · exact Nat.lt_succ_of_lt (h9 g hg)
    · simp only [List.mem_singleton] at hg
      exact hg ▸ Nat.lt_succ_self _

theorem inv_step {s : NetState} (op : Op) (h : Inv s) : Inv (step s op) := by
  cases op with
  | submit => exact inv_create h
  | submitConnect => exact inv_create (inv_bump h)
  | cancel g =>
      show Inv (cancel_step s g).1
      by_cases hg : g ∈ s.records
      · rw [cancel_step, if_pos hg]
        obtain ⟨h1, h2, h3, h4, h5, h6, h7, h8, h9⟩ := h
        refine ⟨h1.erase g, h2, ?_, h4, ?_, ?_, ?_, h8, h9⟩
        · exact fun x hx => h3 x (List.mem_of_mem_erase hx)
        · intro x hx
          rcases List.mem_cons.mp hx with rfl | hx
          · exact h3 x hg
          · exact h5 x hx
        · exact fun x hx => h6 x (List.mem_of_mem_erase hx)
        · intro x hx
          rcases h7 x hx with hr | hf | hc
          · by_cases hxg : x = g
            · exact Or.inr (Or.inr (hxg ▸ List.mem_cons_self _ _))
            · exact Or.inl ((h1.mem_erase_iff).mpr ⟨hxg, hr⟩)
          · exact Or.inr (Or.inl hf)
          · exact Or.inr (Or.inr (List.mem_cons_of_mem _ hc))
      · rw [cancel_step, if_neg hg]
        exact h
  | deliver g =>
      show Inv (deliver_step s g)
      by_cases hg : g ∈ s.records
      · rw [deliver_step, if_pos hg]
        obtain ⟨h1, h2, h3, h4, h5, h6, h7, h8, h9⟩ := h
        refine ⟨h1.erase g, ?_, ?_, ?_, h5, ?_, ?_, h8, h9⟩
        · simp [List.nodup_append, h2, h6 g hg]
        · exact fun x hx => h3 x (List.mem_of_mem_erase hx)
        · intro x hx
          rcases List.mem_append.mp hx with hx | hx
          · exact h4 x hx
          · simp only [List.mem_singleton] at hx
            exact hx ▸ h3 g hg
        · intro x hx
          have hxr := List.mem_of_mem_erase hx
          have hxg : x ≠ g := ((h1.mem_erase_iff).mp hx).1
          simp [List.mem_append, h6 x hxr, hxg]
        · intro x hx
          rcases h7 x hx with hr | hf | hc
          · by_cases hxg : x = g
            · exact Or.inr (Or.inl (List.mem_append_right _ (hxg ▸ List.mem_singleton_self _)))
            · exact Or.inl ((h1.mem_erase_iff).mpr ⟨hxg, hr⟩)
          · exact Or.inr (Or.inl (List.mem_append_left _ hf))
          · exact Or.inr (Or.inr hc)
      · rw [deliver_step, if_neg hg]
        exact h

theorem inv_run {s : NetState} (ops : List Op) (h : Inv s) : Inv (run s ops) := by
  induction ops generalizing s with
  | nil => exact h
  | cons op ops ih => exact ih (inv_step op h)

/-- A generation below the counter that is neither a live record nor fired
stays that way under any further operations: generations are never reused,
so nothing can resurrect its record, and only a live record can fire. -/
theorem dead_stays_dead {s : NetState} {g : Nat} (ops : List Op)
    (hlt : g < s.generation) (hr : g ∉ s.records) (hf : g ∉ s.fired) :
    g < (run s ops).generation ∧ g ∉ (run s ops).records ∧
      g ∉ (run s ops).fired := by
  induction ops generalizing s with
  | nil => exact ⟨hlt, hr, hf⟩
  | cons op ops ih =>
      rw [run_cons]
      cases op with
      | submit =>
          refine ih ?_ ?_ hf
          · exact Nat.lt_succ_of_lt hlt
          · show g ∉ s.generation :: s.records
            simp only [List.mem_cons, not_or]
            exact ⟨Nat.ne_of_lt hlt, hr⟩
      | submitConnect =>
          refine ih ?_ ?_ hf
          · exact Nat.lt_succ_of_lt (Nat.lt_succ_of_lt hlt)
          · show g ∉ (s.generation + 1) :: s.records
            simp only [List.mem_cons, not_or]
            exact ⟨Nat.ne_of_lt (Nat.lt_succ_of_lt hlt), hr⟩
      | cancel g' =>
          show _ ∧ _ ∧ _
          rw [show step s (Op.cancel g') = (cancel_step s g').1 from rfl, cancel_step]
          split
          · exact ih hlt (fun hmem => hr (List.mem_of_mem_erase hmem)) hf
          · exact ih hlt hr hf
      | deliver g' =>
          show _ ∧ _ ∧ _
          rw [show step s (Op.deliver g') = deliver_step s g' from rfl, deliver_step]
          split
          · rename_i hmem'
            refine ih hlt (fun hmem => hr (List.mem_of_mem_erase hmem)) ?_
            intro hmem
            rcases List.mem_append.mp hmem with hx | hx
            · exact hf hx
            · simp only [List.mem_singleton] at hx
              exact hr (hx ▸ hmem')
          · exact ih hlt hr hf

/-- The fired log only grows: an invoked callback stays recorded. -/
theorem fired_mono {s : NetState} {g : Nat} (ops : List Op)
    (h : g ∈ s.fired) : g ∈ (run s ops).fired := by
  induction ops generalizing s with
  | nil => exact h
  | cons op ops ih =>
      rw [run_cons]
      cases op with
      | submit => exact ih h
      | submitConnect => exact ih h
      | cancel g' =>
          rw [show step s (Op.cancel g') = (cancel_step s g').1 from rfl, cancel_step]
          split <;> exact ih h
      | deliver g' =>
          rw [show step s (Op.deliver g') = deliver_step s g' from rfl, deliver_step]
          split
          · exact ih (List.mem_append_left _ h)
          · exact ih h

theorem cancel_step_snd {s : NetState} {g : Nat} :
    (cancel_step s g).2 = true ↔ g ∈ s.records := by
  simp only [cancel_step]
  split <;> simp_all

/-! ## Façade callback dispatch

The callback wrapper that `fetch_captcha` (lines 258–273) hands to
`create_task`: on `Ok(NetworkEvent::Captcha e)` it invokes the typed
success callback, on any other `Ok` event it only logs the mismatch, and
on `Err` it invokes the error callback. The other façade operations use
the same shape with their own event constructor. -/

inductive CallbackChoice where
  | success
  | failure
  | mismatchLogged
deriving DecidableEq

/-- Which user callback the `fetch_captcha` wrapper invokes for a pump
delivery. -/
def fetch_captcha_dispatch (r : WithGeneration NetworkResult) : CallbackChoice :=
  match r.result with
  | .ok (.captcha _) => .success
  | .ok _ => .mismatchLogged
  | .error _ => .failure

/-- Claim C1: for every generation that reaches the registry, either the success
or the error callback is invoked exactly once — unless `cancel` removed
the record first, in which case neither is invoked — and no callback is
ever invoked more than once. The pump invokes the task's callback iff its
record is still present, removing the record in the same step, and the
façade wrapper then invokes exactly one of the two user callbacks. -/
theorem c1_callback_exactly_once (ops₁ ops₂ : List Op) (g : Nat) :
    ((run initState (ops₁ ++ ops₂)).fired.count g ≤ 1)
    ∧ (g ∈ (run initState ops₁).records →
        (run initState (ops₁ ++ Op.deliver g :: ops₂)).fired.count g = 1)
    ∧ (g ∈ (run initState ops₁).records →
        (run initState (ops₁ ++ Op.cancel g :: ops₂)).fired.count g = 0)
    ∧ (∀ (gen : Nat) (e : CaptchaEvent) (err : NetworkError),
        fetch_captcha_dispatch ⟨gen, .ok (.captcha e)⟩ = CallbackChoice.success
        ∧ fetch_captcha_dispatch ⟨gen, .error err⟩ = CallbackChoice.failure) := by
  refine ⟨?_, ?_, ?_, fun gen e err => ⟨rfl, rfl⟩⟩
  · have hinv := @inv_run initState (ops₁ ++ ops₂) inv_init
    exact List.nodup_iff_count_le_one.mp hinv.nodupFired g
  · intro hg
    set s₁ := run initState ops₁ with hs₁
    have hinv₁ : Inv s₁ := inv_run ops₁ inv_init
    rw [run_append, run_cons, ← hs₁]
    have hfired : g ∈ (step s₁ (Op.deliver g)).fired := by
      show g ∈ (deliver_step s₁ g).fired
      rw [deliver_step, if_pos hg]
      exact List.mem_append_right _ (List.mem_singleton_self _)
    have hmem := fired_mono ops₂ hfired
    have hinv : Inv (run (step s₁ (Op.deliver g)) ops₂) :=
      inv_run ops₂ (inv_step _ hinv₁)
    exact List.count_eq_one_of_mem hinv.nodupFired hmem
  · intro hg
    set s₁ := run initState ops₁ with hs₁
    have hinv₁ : Inv s₁ := inv_run ops₁ inv_init
    rw [run_append, run_cons, ← hs₁]
    have hlt : g < (step s₁ (Op.cancel g)).generation := by
      show g < (cancel_step s₁ g).1.generation
      rw [cancel_step, if_pos hg]
      exact hinv₁.recordsLt g hg
    have hr : g ∉ (step s₁ (Op.cancel g)).records := by
      show g ∉ (cancel_step s₁ g).1.records
      rw [cancel_step, if_pos hg]
      exact hinv₁.nodupRecords.not_mem_erase
    have hf : g ∉ (step s₁ (Op.cancel g)).fired := by
      show g ∉ (cancel_step s₁ g).1.fired
      rw [cancel_step, if_pos hg]
      exact hinv₁.disj g hg
    have := dead_stays_dead ops₂ hlt hr hf
    exact List.count_eq_zero.mpr this.2.2

/-- Witness for C1 at a concrete run: one submission allocates generation
0; delivering its result fires the callback exactly once, while a cancel
first means it never fires. -/
theorem c1_witness :
    (0 ∈ (run initState [Op.submit]).records)
    ∧ (run initState ([Op.submit] ++ Op.deliver 0 :: [Op.deliver 0])).fired.count 0 = 1
    ∧ (run initState ([Op.submit] ++ Op.cancel 0 :: [Op.deliver 0])).fired.count 0 = 0 :=
  ⟨by decide,
   (c1_callback_exactly_once [Op.submit] [Op.deliver 0] 0).2.1 (by decide),
   (c1_callback_exactly_once [Op.submit] [Op.deliver 0] 0).2.2.1 (by decide)⟩

/-- Claim C2: if `cancel(g)` finds the record it returns `Ok` and the callback
for `g` never fires afterwards; if it returns `not_found` for a
generation that reached the registry and was never successfully
cancelled, the callback has already fired; and after a successful cancel
any further `cancel(g)` returns `not_found`. -/
theorem c2_cancel_semantics (ops₁ ops₂ : List Op) (g : Nat) :
    (g ∈ (run initState ops₁).records →
        (cancel_step (run initState ops₁) g).2 = true
        ∧ g ∉ (run initState (ops₁ ++ Op.cancel g :: ops₂)).fired)
    ∧ ((cancel_step (run initState ops₁) g).2 = false →
        g ∈ (run initState ops₁).inserted →
        g ∉ (run initState ops₁).cancelled →
        g ∈ (run initState ops₁).fired)
    ∧ (g ∈ (run initState ops₁).records →
        (cancel_step (run initState (ops₁ ++ Op.cancel g :: ops₂)) g).2 = false) := by
  set s₁ := run initState ops₁ with hs₁
  have hinv₁ : Inv s₁ := inv_run ops₁ inv_init
  have hdead : g ∈ s₁.records →
      g ∉ (run initState (ops₁ ++ Op.cancel g :: ops₂)).records ∧
      g ∉ (run initState (ops₁ ++ Op.cancel g :: ops₂)).fired := by
    intro hg
    rw [run_append, run_cons, ← hs₁]
    have hlt : g < (step s₁ (Op.cancel g)).generation := by
      show g < (cancel_step s₁ g).1.generation
      rw [cancel_step, if_pos hg]
      exact hinv₁.recordsLt g hg
    have hr : g ∉ (step s₁ (Op.cancel g)).records := by
      show g ∉ (cancel_step s₁ g).1.records
      rw [cancel_step, if_pos hg]
      exact hinv₁.nodupRecords.not_mem_erase
    have hf : g ∉ (step s₁ (Op.cancel g)).fired := by
      show g ∉ (cancel_step s₁ g).1.fired
      rw [cancel_step, if_pos hg]
      exact hinv₁.disj g hg
    have := dead_stays_dead ops₂ hlt hr hf
    exact ⟨this.2.1, this.2.2⟩
  refine ⟨fun hg => ⟨cancel_step_snd.mpr hg, (hdead hg).2⟩, ?_, ?_⟩
  · intro hnf hins hnc
    have hnr : g ∉ s₁.records := fun hg =>
      by simp [cancel_step_snd.mpr hg] at hnf
    rcases hinv₁.partition g hins with hr | hf | hc
    · exact absurd hr hnr
    · exact hf
    · exact absurd hc hnc
  · intro hg
    have hnr := (hdead hg).1
    simp only [cancel_step, if_neg hnr]

/-- Witness for C2 at a concrete run: generation 0 is live after one
submission; cancelling returns `Ok`, the callback never fires even though
the result later arrives, and a second cancel returns `not_found`. -/
theorem c2_witness :
    (0 ∈ (run initState [Op.submit]).records)
    ∧ (cancel_step (run initState [Op.submit]) 0).2 = true
    ∧ 0 ∉ (run initState ([Op.submit] ++ Op.cancel 0 :: [Op.deliver 0, Op.submit])).fired
    ∧ (cancel_step (run initState ([Op.submit] ++ Op.cancel 0 :: [Op.deliver 0, Op.submit])) 0).2 = false := by
  have h := c2_cancel_semantics [Op.submit] [Op.deliver 0, Op.submit] 0
  have hmem : 0 ∈ (run initState [Op.submit]).records := by decide
  exact ⟨hmem, (h.1 hmem).1, (h.1 hmem).2, h.2.2 hmem⟩

/-- Claim C9: across any sequence of submissions to one core instance, the
allocated task generations are strictly increasing in submission order
(hence allocation order equals submission order and generations are never
reused), pairwise distinct, and one generation is allocated per
submission. -/
theorem c9_generation_allocation (ops : List Op) :
    (run initState ops).allocLog.Pairwise (· < ·)
    ∧ (run initState ops).allocLog.Nodup
    ∧ (run initState ops).allocLog.length = countSubmits ops := by
  have hinv := @inv_run initState ops inv_init
  refine ⟨hinv.allocSorted, hinv.allocSorted.imp Nat.ne_of_lt, ?_⟩
  suffices h : ∀ (s : NetState) (l : List Op),
      (run s l).allocLog.length = s.allocLog.length + countSubmits l by
    simpa [initState] using h initState ops
  intro s l
  induction l generalizing s with
  | nil => simp [run_nil, countSubmits]
  | cons op l ih =>
      rw [run_cons]
      cases op with
      | submit =>
          rw [ih]
          show (s.allocLog ++ [s.generation]).length + countSubmits l = _
          simp [countSubmits]
          omega
      | submitConnect =>
          rw [ih]
          show (s.allocLog ++ [s.generation + 1]).length + countSubmits l = _
          simp [countSubmits]
          omega
      | cancel g =>
          rw [ih]
          show (cancel_step s g).1.allocLog.length + countSubmits l = _
          rw [cancel_step]
          split <;> simp [countSubmits]
      | deliver g =>
          rw [ih]
          show (deliver_step s g).allocLog.length + countSubmits l = _
          rw [deliver_step]
          split <;> simp [countSubmits]

/-! ## Message Dispatcher inbound loop (`send_message_back`, lines 129–185)

The inbound loop processes `WithGeneration<ServerToClient>` frames one at
a time on a single task. A `Distribute` frame is forwarded to the
session's stream callback (when the session record is set); an `ACK`
looks up the pending notifier in `message_buffer` — if present it is
removed and notified, if absent the `match` arm at lines 172–175 executes
`break`, terminating the loop. -/

/-- State of the dispatcher's inbound loop: the pending `message_buffer`
keys, the stream-callback invocations in order, and the notified
sequence numbers in order. `sessionLive` mirrors whether `session_record`
holds `Some` (checked at line 159 before invoking the callback). -/
structure DispatchState where
  buffer : List Nat
  delivered : List ChatMessage
  notified : List Nat
  sessionLive : Bool
deriving DecidableEq

/-- The `ChatMessage` built at lines 152–156 from a `Distribute` payload. -/
def toStream (m : DistributeMsg) : ChatMessage :=
  { sender := m.sender, conversation_id := m.content.conversation_id,
    content := m.content.content }

/-- One loop iteration of `send_message_back` on a received frame. The
boolean is `true` when the loop continues and `false` when it executes
the `break` at line 174 (an `ACK` whose `message_seq` has no pending
notifier). -/
def send_message_back_step (s : DispatchState) : ServerToClient → DispatchState × Bool
  | .distribute m =>
      if s.sessionLive then
        ({ s with delivered := s.delivered ++ [toStream m] }, true)
      else
        (s, true)
  | .ack seq =>
      if seq ∈ s.buffer then
        ({ s with buffer := s.buffer.erase seq, notified := s.notified ++ [seq] }, true)
      else
        (s, false)

/-- Run the inbound loop over the frames received on the wire, in receive
order, stopping (and discarding the rest of the input) when an iteration
breaks. Returns the final state and whether the loop is still running. -/
def send_message_back_run (s : DispatchState) : List ServerToClient → DispatchState × Bool
  | [] => (s, true)
  | m :: ms =>
      match send_message_back_step s m with
      | (s', true) => send_message_back_run s' ms
      | (s', false) => (s', false)

/-- Claim C3, evaluated at the failing input: with no pending notifier, a single
`ACK` frame terminates the inbound loop — the claimed "discard and
continue" does not happen, and a `Distribute` frame received right after
the stray ACK is never delivered to the stream callback. -/
theorem c3_ack_without_notifier_terminates_loop :
    (send_message_back_run
        { buffer := [], delivered := [], notified := [], sessionLive := true }
        [ServerToClient.ack 0,
         ServerToClient.distribute ⟨1, ⟨2, "hello"⟩⟩]).2 = false
    ∧ (send_message_back_run
        { buffer := [], delivered := [], notified := [], sessionLive := true }
        [ServerToClient.ack 0,
         ServerToClient.distribute ⟨1, ⟨2, "hello"⟩⟩]).1.delivered = [] := by
  constructor <;> rfl

/-- Claim C8 fails as stated: `Distribute a` then an unmatched `ACK` then
`Distribute b` — the callback is invoked with `a`, but the loop breaks on
the ACK and `b` is never delivered at all, so "the stream callback sees
`a` then `b`" is false for this wire trace. -/
theorem c8_counterexample :
    (send_message_back_run
        { buffer := [], delivered := [], notified := [], sessionLive := true }
        [ServerToClient.distribute ⟨10, ⟨3, "a"⟩⟩,
         ServerToClient.ack 7,
         ServerToClient.distribute ⟨11, ⟨3, "b"⟩⟩]).1.delivered
      = [toStream ⟨10, ⟨3, "a"⟩⟩]
    ∧ toStream ⟨11, ⟨3, "b"⟩⟩ ∉
      (send_message_back_run
        { buffer := [], delivered := [], notified := [], sessionLive := true }
        [ServerToClient.distribute ⟨10, ⟨3, "a"⟩⟩,
         ServerToClient.ack 7,
         ServerToClient.distribute ⟨11, ⟨3, "b"⟩⟩]).1.delivered := by
  constructor
  · rfl
  · decide

/-- `true` iff every `ACK` in the frame list finds a pending notifier in
the buffer at the moment it is processed (so the `break` at line 174 is
never reached). -/
def acksMatched (buffer : List Nat) : List ServerToClient → Bool
  | [] => true
  | .distribute _ :: ms => acksMatched buffer ms
  | .ack seq :: ms => decide (seq ∈ buffer) && acksMatched (buffer.erase seq) ms

/-- The `Distribute` payloads of a frame list, in receive order, as the
stream messages the callback would observe. -/
def distributesOf : List ServerToClient → List ChatMessage
  | [] => []
  | .distribute m :: ms => toStream m :: distributesOf ms
  | .ack _ :: ms => distributesOf ms

/-- Claim C8 as amended: within a live session, provided every received `ACK`
has a pending notifier when it arrives (so the dispatcher's `break` is
never triggered), the stream callback is invoked with every `Distribute`
frame in receive order — in particular with `a` before `b` whenever `a`
precedes `b` on the wire. -/
theorem c8_inbound_order_amended (s : DispatchState) (msgs : List ServerToClient)
    (hlive : s.sessionLive = true) (hack : acksMatched s.buffer msgs = true) :
    (send_message_back_run s msgs).1.delivered = s.delivered ++ distributesOf msgs
    ∧ (send_message_back_run s msgs).2 = true := by
  induction msgs generalizing s with
  | nil => simp [send_message_back_run, distributesOf]
  | cons m ms ih =>
      cases m with
      | distribute d =>
          rw [send_message_back_run, send_message_back_step, if_pos hlive]
          have h2 := ih { s with delivered := s.delivered ++ [toStream d] }
            hlive (by simpa [acksMatched] using hack)
          refine ⟨?_, h2.2⟩
          rw [h2.1]
          simp [distributesOf]
      | ack seq =>
          simp only [acksMatched, Bool.and_eq_true, decide_eq_true_eq] at hack
          rw [send_message_back_run, send_message_back_step, if_pos hack.1]
          have h2 := ih { s with buffer := s.buffer.erase seq, notified := s.notified ++ [seq] } hlive hack.2
          refine ⟨?_, h2.2⟩
          rw [h2.1]
          simp [distributesOf]

/-- Witness for the amended C8: a live session whose wire trace is
`Distribute a, ACK 5 (pending), Distribute b` delivers `a` then `b` to
the stream callback. -/
theorem c8_amended_witness :
    (send_message_back_run
        { buffer := [5], delivered := [], notified := [], sessionLive := true }
        [ServerToClient.distribute ⟨10, ⟨3, "a"⟩⟩,
         ServerToClient.ack 5,
         ServerToClient.distribute ⟨11, ⟨3, "b"⟩⟩]).1.delivered
      = [toStream ⟨10, ⟨3, "a"⟩⟩, toStream ⟨11, ⟨3, "b"⟩⟩] := by
  have := c8_inbound_order_amended
    { buffer := [5], delivered := [], notified := [], sessionLive := true }
    [ServerToClient.distribute ⟨10, ⟨3, "a"⟩⟩,
     ServerToClient.ack 5,
     ServerToClient.distribute ⟨11, ⟨3, "b"⟩⟩] rfl (by decide)
  simpa [distributesOf, toStream] using this.1

/-! ## Timeout / cancellation envelope (`create_task`, lines 199–233)

`create_task` wraps the inner future in `tokio::time::timeout` and races
the wrapped future against the global cancellation token. The inner
future is abstracted by its outcome: it either completes at some (logical)
time with a `NetworkEvent`, or never completes. -/

/-- Outcome of the inner future handed to `create_task`. -/
inductive InnerOutcome where
  | completes (t : Nat) (e : NetworkEvent)
  | diverges
deriving DecidableEq

/-- `timeout_wrapped` (lines 201–220): if the inner future completes
within the timeout its event is wrapped as `Ok`, otherwise the elapse
produces `Err(Timeout)`. Exactly one message is built either way. -/
def timeout_wrapped (generation timeout : Nat) : InnerOutcome → WithGeneration NetworkResult
  | .completes t e =>
      if t ≤ timeout then ⟨generation, .ok e⟩ else ⟨generation, .error .timeout⟩
  | .diverges => ⟨generation, .error .timeout⟩

/-- The (logical) time at which the `timeout_wrapped` branch finishes:
the inner completion time capped by the timeout. -/
def timeout_wrapped_done (timeout : Nat) : InnerOutcome → Nat
  | .completes t _ => min t timeout
  | .diverges => timeout

/-- The outer `select!` (lines 222–232): if the global shutdown signal
(`shutdownAt`, `none` when never tripped) fires before the timeout-wrapped
branch finishes, `Err(SysCancelled)` is sent and the inner future is
dropped; otherwise the timeout-wrapped branch's single message is sent.
Returns the list of messages sent on the result channel. -/
def cancellation_wrapped (generation timeout : Nat) (inner : InnerOutcome) :
    Option Nat → List (WithGeneration NetworkResult)
  | some c =>
      if c < timeout_wrapped_done timeout inner then
        [⟨generation, .error .sysCancelled⟩]
      else
        [timeout_wrapped generation timeout inner]
  | none => [timeout_wrapped generation timeout inner]

/-- Claim C4: absent shutdown, every spawned task sends exactly one
message on the result channel: `Err(Timeout)` when the inner future does
not complete within the timeout, and `Ok` wrapping the inner
`NetworkEvent` otherwise. -/
theorem c4_timeout_envelope (generation timeout : Nat) (inner : InnerOutcome) :
    (cancellation_wrapped generation timeout inner none).length = 1
    ∧ (∀ t e, inner = .completes t e → t ≤ timeout →
        cancellation_wrapped generation timeout inner none = [⟨generation, .ok e⟩])
    ∧ (∀ t e, inner = .completes t e → timeout < t →
        cancellation_wrapped generation timeout inner none
          = [⟨generation, .error .timeout⟩])
    ∧ (inner = .diverges →
        cancellation_wrapped generation timeout inner none
          = [⟨generation, .error .timeout⟩]) := by
  refine ⟨rfl, ?_, ?_, ?_⟩
  · rintro t e rfl h
    simp [cancellation_wrapped, timeout_wrapped, h]
  · rintro t e rfl h
    simp [cancellation_wrapped, timeout_wrapped, Nat.not_le.mpr h]
  · rintro rfl
    rfl

/-- Witness for C4: a task completing at time 5 under timeout 100 sends
`Ok`, one completing at 200 sends `Err(Timeout)`, and a diverging one
sends `Err(Timeout)`. -/
theorem c4_witness :
    cancellation_wrapped 0 100 (.completes 5 (.captcha ⟨.ok ⟨0, "AAA="⟩⟩)) none
      = [⟨0, .ok (.captcha ⟨.ok ⟨0, "AAA="⟩⟩)⟩]
    ∧ cancellation_wrapped 1 100 (.completes 200 (.captcha ⟨.ok ⟨0, "AAA="⟩⟩)) none
      = [⟨1, .error .timeout⟩]
    ∧ cancellation_wrapped 2 100 .diverges none = [⟨2, .error .timeout⟩] :=
  ⟨(c4_timeout_envelope 0 100 _).2.1 5 _ rfl (by decide),
   (c4_timeout_envelope 1 100 _).2.2.1 200 _ rfl (by decide),
   (c4_timeout_envelope 2 100 _).2.2.2 rfl⟩

/-! ## Result pump under shutdown (`send_result_back`, lines 98–127)

The pump is a `loop` around a `biased` `select!` whose first arm is
`cancellation_token.cancelled()`. Once the token is cancelled that arm is
ready on every iteration, so the `biased` select takes it forever: the
pump logs the number of queued (undelivered) results and never reaches
`result_rx.recv()` again — no callback is invoked for any result still in
(or later sent to) the channel. While the token is not cancelled the pump
consumes the channel in FIFO order, firing the callback of each result
whose record is present. -/

/-- Pump state: live record keys, callback invocations (with payload) in
order, and the logged count of undelivered results, if any. -/
structure PumpState where
  records : List Nat
  firedResults : List (WithGeneration NetworkResult)
  undoneLogged : Option Nat
deriving DecidableEq

/-- Run `send_result_back` against the queued results. With the token
cancelled (lines 106–109) it only logs the queue length; otherwise
(lines 110–123) it delivers each queued result whose record exists. -/
def send_result_back_run (cancelled : Bool) (s : PumpState)
    (queue : List (WithGeneration NetworkResult)) : PumpState :=
  if cancelled then
    { s with undoneLogged := some queue.length }
  else
    queue.foldl (fun s m =>
      if m.generation ∈ s.records then
        { s with records := s.records.erase m.generation,
                 firedResults := s.firedResults ++ [m] }
      else s) s

/-- Claim C6 evaluated at the failing input: a task (generation 0) still
awaiting when shutdown trips does send `Err(SysCancelled)` into the
result channel (and its inner future is dropped), and the pump logs one
undelivered result — but the pump, having observed the cancelled token,
never invokes any callback, so `Err(SysCancelled)` never reaches the
error callback. The last conjunct shows the same queue would have been
delivered had the pump still been consuming. -/
theorem c6_shutdown_sys_cancelled_not_delivered :
    cancellation_wrapped 0 1000 .diverges (some 0) = [⟨0, .error .sysCancelled⟩]
    ∧ (send_result_back_run true ⟨[0], [], none⟩
        [⟨0, .error .sysCancelled⟩]).firedResults = []
    ∧ (send_result_back_run true ⟨[0], [], none⟩
        [⟨0, .error .sysCancelled⟩]).undoneLogged = some 1
    ∧ (send_result_back_run false ⟨[0], [], none⟩
        [⟨0, .error .sysCancelled⟩]).firedResults = [⟨0, .error .sysCancelled⟩] :=
  ⟨rfl, rfl, rfl, rfl⟩

/-! ## Chat send path (`send_chat_message`, lines 456–526)

The façade allocates `message_id` by `fetch_add` (line 467) before the
task is spawned. The task first locks the session record: if it is `None`
it returns `MessageError::MissingSession` at once (lines 495–500),
touching neither the pending table nor the sender; otherwise it inserts
the notifier (line 505), hands the frame to the WebSocket sender
(line 508), and awaits the notifier (line 516), removing the entry after
the wake (line 518). The inbound ACK and the per-task timeout are
abstracted by `ackArrives`; a failed channel send by `sendOk`. -/

/-- Observable effects of one run of the `send_chat_message` task body. -/
structure ChatTaskRun where
  result : Option NetworkEvent
  buffer : List Nat
  frames : List ClientToServer
  awaited : Bool
deriving DecidableEq

/-- The task body of `send_chat_message` (lines 494–523). `result = none`
means the body never completes on its own (no ACK; the envelope's timeout
resolves it). -/
def send_chat_message_task (sessionLive sendOk ackArrives : Bool)
    (buffer : List Nat) (message_id conversation_id : Nat) (content : String) :
    ChatTaskRun :=
  if sessionLive then
    let buffer := message_id :: buffer
    if sendOk then
      if ackArrives then
        { result := some (.chat ⟨.ok ()⟩), buffer := buffer.erase message_id,
          frames := [.send message_id ⟨conversation_id, content⟩], awaited := true }
      else
        { result := none, buffer := buffer,
          frames := [.send message_id ⟨conversation_id, content⟩], awaited := true }
    else
      { result := some (.chat ⟨.error .fallbackError⟩), buffer := buffer,
        frames := [], awaited := false }
  else
    { result := some (.chat ⟨.error .missingSession⟩), buffer := buffer,
      frames := [], awaited := false }

/-- The synchronous façade call: `message_id.fetch_add(1)` happens before
the task is spawned, so the counter advances no matter how the task
ends. -/
structure SendChatCall where
  message_seq : Nat
  counter_after : Nat
  task : ChatTaskRun
deriving DecidableEq

/-- `send_chat_message` façade: allocate the sequence number, advance the
counter, spawn the task. -/
def send_chat_message (message_id : Nat) (sessionLive sendOk ackArrives : Bool)
    (buffer : List Nat) (conversation_id : Nat) (content : String) : SendChatCall :=
  { message_seq := message_id,
    counter_after := message_id + 1,
    task := send_chat_message_task sessionLive sendOk ackArrives buffer
      message_id conversation_id content }

/-- Claim C5: with no live session, the `send_chat_message` task completes
immediately with `MessageEvent` carrying `Err(MessageError::MissingSession)`
— it never suspends (no wait on the notifier) and no retry exists in the
body. -/
theorem c5_missing_session (sendOk ackArrives : Bool) (buffer : List Nat)
    (message_id conversation_id : Nat) (content : String) :
    (send_chat_message_task false sendOk ackArrives buffer message_id
        conversation_id content).result
      = some (.chat ⟨.error .missingSession⟩)
    ∧ (send_chat_message_task false sendOk ackArrives buffer message_id
        conversation_id content).awaited = false :=
  ⟨rfl, rfl⟩

/-- Claim C10: when the task fails with `MissingSession`, the pending
table is unchanged, no frame reaches the WebSocket sender — yet the
`message_seq` counter was already advanced by the façade. -/
theorem c10_missing_session_frame_effect (sendOk ackArrives : Bool)
    (buffer : List Nat) (message_id conversation_id : Nat) (content : String) :
    (send_chat_message message_id false sendOk ackArrives buffer
        conversation_id content).task.buffer = buffer
    ∧ (send_chat_message message_id false sendOk ackArrives buffer
        conversation_id content).task.frames = []
    ∧ (send_chat_message message_id false sendOk ackArrives buffer
        conversation_id content).counter_after = message_id + 1
    ∧ (send_chat_message message_id false sendOk ackArrives buffer
        conversation_id content).task.result
      = some (.chat ⟨.error .missingSession⟩) :=
  ⟨rfl, rfl, rfl, rfl⟩

/-! ## Start gate ordering (`create_task`, lines 197–246)

The spawned future's first action is `notify_clone.notified().await`
(line 200); the caller inserts the `TaskRecord` (line 243) and only then
calls `notify.notify_one()` (line 244). A fresh `Notify` holds no permit,
so the await can complete only after the `notify_one`. The events of one
`create_task` call are modelled with a logical timestamp each; the
constraints are the two program orders plus the gate's synchronization. -/

/-- The events of one `create_task` call and its spawned task. -/
inductive GateAction where
  | allocGen
  | spawnTask
  | insertRecord
  | tripGate
  | awaitGate
  | runBody
  | sendResult
deriving DecidableEq

/-- An interleaving of the caller and the task, as a timestamp per
event. -/
structure GateSchedule where
  time : GateAction → Nat

/-- The orders every real execution of `create_task` obeys: the caller
allocates (line 193), spawns (lines 235–237), inserts the record
(line 243) and trips the gate (line 244), in program order; the task
awaits the gate (line 200), runs the body and sends its result
(lines 201–231), in program order; and the gate await on the fresh
`Notify` completes only after `notify_one`. -/
def respects_create_task (sch : GateSchedule) : Prop :=
  sch.time .allocGen < sch.time .spawnTask
  ∧ sch.time .spawnTask < sch.time .insertRecord
  ∧ sch.time .insertRecord < sch.time .tripGate
  ∧ sch.time .awaitGate < sch.time .runBody
  ∧ sch.time .runBody < sch.time .sendResult
  ∧ sch.time .tripGate < sch.time .awaitGate

/-- Claim C7: in every interleaving a real execution can produce, the
task's result is sent only after the `TaskRecord` was inserted — the
start gate makes completion-before-insertion impossible. -/
theorem c7_start_gate (sch : GateSchedule) (h : respects_create_task sch) :
    sch.time .insertRecord < sch.time .sendResult := by
  obtain ⟨_, _, h3, h4, h5, h6⟩ := h
  omega

/-- A concrete interleaving of `create_task` used as the C7 witness. -/
def gateExample : GateSchedule :=
  ⟨fun a => match a with
    | .allocGen => 0
    | .spawnTask => 1
    | .insertRecord => 2
    | .tripGate => 3
    | .awaitGate => 4
    | .runBody => 5
    | .sendResult => 6⟩

/-- Witness for C7 at the concrete interleaving. -/
theorem c7_witness :
    respects_create_task gateExample
    ∧ gateExample.time GateAction.insertRecord
        < gateExample.time GateAction.sendResult := by
  have h : respects_create_task gateExample := by
    refine ⟨?_, ?_, ?_, ?_, ?_, ?_⟩ <;> decide
  exact ⟨h, c7_start_gate gateExample h⟩

end ClientNetwork
